import Mathlib

/-!
# Verification of the would-you-rather question generator

Shallow embedding of `netlify/functions/generate-question.js` (two handler
variants: a free-text one parsing `A: ... OR B: ...` with a regex, and a
structured one requesting and re-parsing a JSON object), together with the
request plumbing both variants share (method check, body/category parsing,
API-key check, upstream call, response emission).

Strings are modelled as `List Char` of Unicode code points (the JS source and
all inputs of interest are ASCII, where JS UTF-16 indices and code-point
indices agree).
-/

namespace WouldYouRather

/-! ## Character classes

`isWS` is the character set of the JavaScript regex class `\s` (which is also
the set trimmed by `String.prototype.trim`): ASCII whitespace, NBSP, the
Unicode space separators, line/paragraph separators and the BOM.

`isDot` is the set matched by `.` in a JS regex without the `s` flag:
everything except the four LineTerminator characters.
-/

def isWS (c : Char) : Bool :=
  c = ' ' || c = '\t' || c = '\n' || c = '\r' || c = '\x0b' || c = '\x0c' ||
  c.val == 0x00a0 || c.val == 0x1680 ||
  (0x2000 ≤ c.val && c.val ≤ 0x200a) ||
  c.val == 0x2028 || c.val == 0x2029 || c.val == 0x202f ||
  c.val == 0x205f || c.val == 0x3000 || c.val == 0xfeff

def isDot (c : Char) : Bool :=
  !(c = '\n' || c = '\r' || c.val == 0x2028 || c.val == 0x2029)

/-- Case-insensitive letter classes used by the `/i` regex. -/
def isA (c : Char) : Bool := c = 'A' || c = 'a'

def isO (c : Char) : Bool := c = 'O' || c = 'o'

def isR (c : Char) : Bool := c = 'R' || c = 'r'

def isB (c : Char) : Bool := c = 'B' || c = 'b'

/-- JS `String.prototype.trim`: strip `\s`-characters from both ends. -/
def jsTrim (l : List Char) : List Char :=
  ((l.dropWhile isWS).reverse.dropWhile isWS).reverse

/-- The trailing whitespace run of `l.dropWhile isWS`, so that
`l.dropWhile isWS = jsTrim l ++ wsTail l`. -/
def wsTail (l : List Char) : List Char :=
  ((l.dropWhile isWS).reverse.takeWhile isWS).reverse

/-! ## The regex of the free-text variant

The source regex (line 67 of `generate-question.js`) is

  `/(?:^|\s*)A:\s*(.*?)(?:\s*OR\s*B:\s*(.*))?$/i`

run by `text.match(regex)` (leftmost match, backtracking semantics, no `m`,
`s` or `g` flags, so `.` excludes line terminators and `$` matches only at the
very end of the input).  The embedding below is the deterministic residue of
those semantics:

* greedy `\s*` runs that are immediately followed by a non-whitespace
  requirement (`A`, `O`, `B`) can only succeed at their maximal extent, since
  a shorter stop leaves a whitespace character where a letter is required;
* the `\s*` before `(.*)` and before `(.*?)` likewise cannot change success or
  the reported captures, because the maximal extent is attempted first;
* `(.*)` followed by `$` succeeds exactly when the remaining text contains no
  line terminator, capturing all of it;
* the leftmost-match rule together with `(?:^|\s*)A:` means the engine tries
  every occurrence of `A:`/`a:` from left to right and commits to the first
  occurrence from which the rest of the pattern matches.
-/

/-- After `\s*OR\s*B:`: the final `\s*(.*)` and `$`.  `(.*)` is greedy over
non-line-terminators and `$` only matches at the very end, so this succeeds
exactly when nothing after the whitespace run is a line terminator. -/
def tg2AfterB (s6 : List Char) : Option (List Char) :=
  if (s6.dropWhile isWS).all isDot then some (s6.dropWhile isWS) else none

/-- After `\s*OR`: the `\s*B:` part. -/
def tg2AfterOR (s5 : List Char) : Option (List Char) :=
  match s5 with
  | b :: c :: s6 => if isB b && c = ':' then tg2AfterB s6 else none
  | _ => none

/-- After the leading `\s*`: the `OR` literal. -/
def tg2AfterWS (s3 : List Char) : Option (List Char) :=
  match s3 with
  | o :: r :: s4 => if isO o && isR r then tg2AfterOR (s4.dropWhile isWS) else none
  | _ => none

/-- The optional group `(?:\s*OR\s*B:\s*(.*))?` followed by `$`, attempted at
a given remainder of the text.  Returns group 2's capture on success. -/
def tryGroup2 (s : List Char) : Option (List Char) :=
  tg2AfterWS (s.dropWhile isWS)

/-- The lazy loop of `(.*?)` (group 1): grow the capture one `.`-character at
a time, at each length first trying the optional group 2 (and the final `$`
when the input is exhausted).  `acc` is the reversed capture so far. -/
def kLoop : List Char → List Char → Option (List Char × Option (List Char))
  | acc, [] =>
    match tryGroup2 [] with
    | some g2 => some (acc.reverse, some g2)
    | none => some (acc.reverse, none)
  | acc, c :: s' =>
    match tryGroup2 (c :: s') with
    | some g2 => some (acc.reverse, some g2)
    | none => if isDot c then kLoop (c :: acc) s' else none

/-- Everything after a matched `A:`: `\s*(.*?)(?:\s*OR\s*B:\s*(.*))?$`. -/
def matchAfterA (rest : List Char) : Option (List Char × Option (List Char)) :=
  kLoop [] (rest.dropWhile isWS)

/-- Whether a list starts with `':'`. -/
def colonHead : List Char → Bool
  | c :: _ => c = ':'
  | [] => false

/-- Scan for occurrences of `A:` (case-insensitive), left to right, and commit
to the first from which the rest of the pattern matches.  Returns the index of
the `A` character and the two captures. -/
def scanA : List Char → Nat → Option (Nat × (List Char × Option (List Char)))
  | [], _ => none
  | c :: s, i =>
    if isA c && colonHead s then
      match matchAfterA s.tail with
      | some g => some (i, g)
      | none => scanA s (i + 1)
    else scanA s (i + 1)

/-- `text.match(regex)`: index of the matched `A` plus the two captures. -/
def jsMatch (text : List Char) : Option (Nat × (List Char × Option (List Char))) :=
  scanA text 0

/-- Length of the maximal whitespace suffix of `l`; the matched text of the
regex starts `wsSuffLen (take q text)` characters before the committed `A` at
index `q`, because `(?:^|\s*)` absorbs the whitespace run preceding it. -/
def wsSuffLen (l : List Char) : Nat :=
  (l.reverse.takeWhile isWS).length

/-- The generic fallback pair of lines 85-86 (used when the regex fails to
match, or when `match[1]` is the empty string and hence falsy). -/
def defaultA : List Char := "Would you rather always be 10 minutes late,".data

def defaultB : List Char := "or always be 20 minutes early?".data

/-- The option-B fallback of line 78, used when only option A was captured and
`text.substring(match[0].length).trim()` is empty. -/
def fallbackB : List Char := "or face a new challenge?".data

/-- Lines 60-87 of the free-text variant.  The initial values of lines 61-62
("pet dragon" / "pet unicorn") are overwritten on every control path of the
source and therefore never surface.

Note `text.substring(match[0].length)`: `match[0]` always extends to the end
of the input (the pattern ends with `$`), so its length is
`text.length - match.index`, and `substring` of that is the *last*
`match.index` characters of `text` (the argument of `substring` counts from
the start of the string, not from the end of the match). -/
def normalizeFT (text : List Char) : List Char × List Char :=
  match jsMatch text with
  | some (q, (g1, g2opt)) =>
    if g1 = [] then (defaultA, defaultB)
    else
      match g2opt with
      | some (c :: tl) => (jsTrim g1, jsTrim (c :: tl))
      | _ =>
        let startIdx := q - wsSuffLen (text.take q)
        let remaining := jsTrim (text.drop (text.length - startIdx))
        (jsTrim g1, if remaining = [] then fallbackB else remaining)
  | none => (defaultA, defaultB)

/-- String-level wrapper: the `{optionA, optionB}` pair of the free-text
variant's 200 response. -/
def normalizeFreeText (text : String) : String × String :=
  let p := normalizeFT text.data
  (String.mk p.1, String.mk p.2)

/-! ## JSON values and `JSON.parse`

The structured variant re-parses the model's reply with `JSON.parse` and the
request-body parsing of both variants uses it too.  `Json` is the value space;
numbers keep their lexeme pieces (sign, integer digits, fraction digits,
optional exponent) so that JS truthiness of a parsed number is decidable
without floating point. -/

inductive Json where
  | null
  | bool (b : Bool)
  | num (neg : Bool) (ip fp : List Char) (ex : Option (Bool × List Char))
  | str (s : String)
  | arr (elems : List Json)
  | obj (members : List (String × Json))

/-- JSON whitespace (stricter than the regex class `\s`). -/
def isJsonWS (c : Char) : Bool :=
  c = ' ' || c = '\t' || c = '\n' || c = '\r'

def skipJsonWS (s : List Char) : List Char := s.dropWhile isJsonWS

def hexVal (c : Char) : Option Nat :=
  if '0' ≤ c ∧ c ≤ '9' then some (c.toNat - 48)
  else if 'a' ≤ c ∧ c ≤ 'f' then some (c.toNat - 87)
  else if 'A' ≤ c ∧ c ≤ 'F' then some (c.toNat - 55)
  else none

/-- JSON string body after the opening quote, accumulating in reverse.
Escape handling follows `JSON.parse`; a `\uXXXX` surrogate pair is decoded to
its code point, and a lone surrogate (which JS would keep as a bare UTF-16
unit, unrepresentable in `Char`) is mapped to U+FFFD — the success/failure
boundary of the parser is unaffected. -/
def parseStrAux : Nat → List Char → List Char → Option (List Char × List Char)
  | 0, _, _ => none
  | Nat.succ _, acc, '"' :: r => some (acc.reverse, r)
  | Nat.succ f, acc, '\\' :: e :: r =>
    if e = '"' then parseStrAux f ('"' :: acc) r
    else if e = '\\' then parseStrAux f ('\\' :: acc) r
    else if e = '/' then parseStrAux f ('/' :: acc) r
    else if e = 'b' then parseStrAux f ('\x08' :: acc) r
    else if e = 'f' then parseStrAux f ('\x0c' :: acc) r
    else if e = 'n' then parseStrAux f ('\n' :: acc) r
    else if e = 'r' then parseStrAux f ('\r' :: acc) r
    else if e = 't' then parseStrAux f ('\t' :: acc) r
    else if e = 'u' then
      match r with
      | h1 :: h2 :: h3 :: h4 :: r2 =>
        match hexVal h1, hexVal h2, hexVal h3, hexVal h4 with
        | some a, some b, some c, some d =>
          let n := ((a * 16 + b) * 16 + c) * 16 + d
          if 0xd800 ≤ n ∧ n ≤ 0xdbff then
            match r2 with
            | '\\' :: 'u' :: j1 :: j2 :: j3 :: j4 :: r3 =>
              match hexVal j1, hexVal j2, hexVal j3, hexVal j4 with
              | some w, some x, some y, some z =>
                let m := ((w * 16 + x) * 16 + y) * 16 + z
                if 0xdc00 ≤ m ∧ m ≤ 0xdfff then
                  parseStrAux f
                    (Char.ofNat (0x10000 + (n - 0xd800) * 0x400 + (m - 0xdc00)) :: acc) r3
                else parseStrAux f ('�' :: acc) r2
              | _, _, _, _ => parseStrAux f ('�' :: acc) r2
            | _ => parseStrAux f ('�' :: acc) r2
          else if 0xdc00 ≤ n ∧ n ≤ 0xdfff then parseStrAux f ('�' :: acc) r2
          else parseStrAux f (Char.ofNat n :: acc) r2
        | _, _, _, _ => none
      | _ => none
    else none
  | Nat.succ _, _, '\\' :: [] => none
  | Nat.succ f, acc, c :: r => if c.val < 32 then none else parseStrAux f (c :: acc) r
  | Nat.succ _, _, [] => none

def isDigit (c : Char) : Bool := '0' ≤ c && c ≤ '9'

/-- Exponent and end of a number literal. -/
def afterFrac (neg : Bool) (ip fd : List Char) (s : List Char) :
    Option (Json × List Char) :=
  match s with
  | c :: r =>
    if c = 'e' ∨ c = 'E' then
      let p := match r with
        | '+' :: t => (false, t)
        | '-' :: t => (true, t)
        | _ => (false, r)
      let ed := p.2.takeWhile isDigit
      if ed = [] then none
      else some (.num neg ip fd (some (p.1, ed)), p.2.dropWhile isDigit)
    else some (.num neg ip fd none, s)
  | [] => some (.num neg ip fd none, [])

/-- Optional fraction part of a number literal. -/
def afterInt (neg : Bool) (ip : List Char) (s : List Char) :
    Option (Json × List Char) :=
  match s with
  | '.' :: r =>
    let fd := r.takeWhile isDigit
    if fd = [] then none else afterFrac neg ip fd (r.dropWhile isDigit)
  | _ => afterFrac neg ip [] s

/-- JSON number literal (grammar: `-? (0 | [1-9][0-9]*) frac? exp?`). -/
def parseNum (s : List Char) : Option (Json × List Char) :=
  let p := match s with
    | '-' :: r => (true, r)
    | _ => (false, s)
  match p.2 with
  | c :: r =>
    if c = '0' then afterInt p.1 ['0'] r
    else if isDigit c then
      afterInt p.1 (c :: r.takeWhile isDigit) (r.dropWhile isDigit)
    else none
  | [] => none

/-- Parser task: a value, the members of an object (positioned at a key), or
the elements of an array (positioned at a value). -/
inductive PTask where
  | value (s : List Char)
  | objBody (s : List Char) (acc : List (String × Json))
  | arrBody (s : List Char) (acc : List Json)

/-- Fuel-indexed recursive-descent parser for the `JSON.parse` grammar. -/
def parseF : Nat → PTask → Option (Json × List Char)
  | 0, _ => none
  | Nat.succ f, .value s =>
    match skipJsonWS s with
    | [] => none
    | c :: r =>
      if c = '\x7b' then
        match skipJsonWS r with
        | c2 :: r2 =>
          if c2 = '\x7d' then some (.obj [], r2)
          else parseF f (.objBody (c2 :: r2) [])
        | [] => none
      else if c = '[' then
        match skipJsonWS r with
        | c2 :: r2 =>
          if c2 = ']' then some (.arr [], r2)
          else parseF f (.arrBody (c2 :: r2) [])
        | [] => none
      else if c = '"' then
        match parseStrAux (r.length + 1) [] r with
        | some (cs, rest) => some (.str (String.mk cs), rest)
        | none => none
      else if c = 't' then
        match r with
        | 'r' :: 'u' :: 'e' :: r2 => some (.bool true, r2)
        | _ => none
      else if c = 'f' then
        match r with
        | 'a' :: 'l' :: 's' :: 'e' :: r2 => some (.bool false, r2)
        | _ => none
      else if c = 'n' then
        match r with
        | 'u' :: 'l' :: 'l' :: r2 => some (.null, r2)
        | _ => none
      else parseNum (c :: r)
  | Nat.succ f, .objBody s acc =>
    match s with
    | '"' :: r =>
      match parseStrAux (r.length + 1) [] r with
      | some (kcs, r2) =>
        match skipJsonWS r2 with
        | ':' :: r3 =>
          match parseF f (.value r3) with
          | some (v, r4) =>
            match skipJsonWS r4 with
            | ',' :: r5 =>
              parseF f (.objBody (skipJsonWS r5) ((String.mk kcs, v) :: acc))
            | c5 :: r5 =>
              if c5 = '\x7d' then
                some (.obj ((String.mk kcs, v) :: acc).reverse, r5)
              else none
            | [] => none
          | none => none
        | _ => none
      | none => none
    | _ => none
  | Nat.succ f, .arrBody s acc =>
    match parseF f (.value s) with
    | some (v, r) =>
      match skipJsonWS r with
      | ',' :: r2 => parseF f (.arrBody r2 (v :: acc))
      | ']' :: r2 => some (.arr (v :: acc).reverse, r2)
      | _ => none
    | none => none

/-- `JSON.parse`: whole-input parse, `none` models the thrown `SyntaxError`. -/
def jsonParse (s : String) : Option Json :=
  match parseF (s.length + 1) (.value s.data) with
  | some (j, rest) => if skipJsonWS rest = [] then some j else none
  | none => none

/-- Last binding wins, as in a JS object built by `JSON.parse` where later
duplicate keys overwrite earlier ones. -/
def lookupLast : List (String × Json) → String → Option Json
  | [], _ => none
  | (key, v) :: rest, k =>
    match lookupLast rest k with
    | some w => some w
    | none => if key = k then some v else none

/-- JS property access `j.k` on a parsed value (`none` = `undefined`). -/
def jsGet (j : Json) (k : String) : Option Json :=
  match j with
  | .obj kvs => lookupLast kvs k
  | _ => none

/-- JS truthiness of a parsed JSON value.  A number is falsy exactly when it
denotes zero, i.e. all its mantissa digits are `0` (float underflow of
extreme exponents is outside the modelled range). -/
def jsTruthy : Json → Bool
  | .null => false
  | .bool b => b
  | .str s => !(s == "")
  | .num _ ip fp _ => !(ip.all (· == '0') && fp.all (· == '0'))
  | .arr _ => true
  | .obj _ => true

/-- Number lexeme back to text (approximates JS number formatting; no claim
depends on a numeric category). -/
def numText (neg : Bool) (ip fp : List Char) (ex : Option (Bool × List Char)) :
    String :=
  (if neg then "-" else "") ++ String.mk ip ++
  (if fp = [] then "" else "." ++ String.mk fp) ++
  (match ex with
   | some (eneg, ed) => "e" ++ (if eneg then "-" else "") ++ String.mk ed
   | none => "")

/-- JS string coercion of a parsed value, as used by template interpolation
(approximate on nested arrays; every claim interpolates a string). -/
def jsToStringF : Nat → Json → String
  | _, .null => "null"
  | _, .bool true => "true"
  | _, .bool false => "false"
  | _, .num neg ip fp ex => numText neg ip fp ex
  | _, .str s => s
  | _, .obj _ => "[object Object]"
  | 0, .arr _ => ""
  | Nat.succ f, .arr vs => String.intercalate "," (vs.map (jsToStringF f))

def jsToString (j : Json) : String := jsToStringF 8 j

/-! ## The shared request plumbing and the two handlers -/

/-- Truthiness of the `body.category` access in `body && body.category`
(false when the field is absent, i.e. `undefined`). -/
def categoryTruthy (j : Json) : Bool :=
  match jsGet j "category" with
  | some v => jsTruthy v
  | none => false

/-- Lines 17-28 (identical in both variants): default category `"General"`,
overridden only when the body parses and `body && body.category` is truthy.
`none` models an absent request body (`JSON.parse(undefined)` throws). -/
def categoryOf (body : Option String) : Json :=
  match body with
  | none => Json.str "General"
  | some s =>
    match jsonParse s with
    | none => Json.str "General"
    | some j =>
      if jsTruthy j then
        match jsGet j "category" with
        | some v => if jsTruthy v then v else Json.str "General"
        | none => Json.str "General"
      else Json.str "General"

/-- The free-text prompt template (lines 49-52). -/
def prompt1 (category : Json) : String :=
  "Generate a unique \"Would You Rather\" question with two distinct options.\nThe response should be in the format: \"A: [Option A Text] OR B: [Option B Text]\".\nThe text for Option A and Option B can include Markdown formatting like **bold** or *italics*.\nThe category is: "
  ++ jsToString category ++ "."

/-- The structured prompt template (line 151). -/
def prompt2 (category : Json) : String :=
  "Generate a \"Would You Rather\" question about " ++ jsToString category ++
  ". Make the options concise, creative, and generally humorous or thought-provoking. Avoid any negative or sad twists. Provide two distinct options (optionA and optionB) that are balanced in difficulty. Ensure the response is in JSON format with keys \"optionA\" and \"optionB\"."

inductive RespBody where
  | message (m : String)
  | errorDetail (m d : String)
  | pair (optionA optionB : String)
  | json (j : Json)

structure HttpResponse where
  statusCode : Nat
  body : RespBody

def methodNotAllowedMsg : String := "Method Not Allowed"

def configErrMsg1 : String := "Server configuration error: API key not set."

def configErrMsg2 : String := "Server configuration error: API key missing."

def genErrMsg : String := "Error generating question from AI."

/-- Models the message of the platform `SyntaxError` thrown by `JSON.parse`
on line 175 and caught on line 184 (its exact wording is not controlled by
the repository's code). -/
def jsonSyntaxMsg : String := "Unexpected token in JSON"

/-- Variant 1 (free-text), lines 8-102.  `gen` is the upstream call
`model.generateContent(prompt)` followed by `response.text()`: `.ok` is the
returned raw text, `.error` a thrown error's message.  The second component
records whether the upstream call was attempted. -/
def handler1 (httpMethod : String) (body : Option String) (apiKey : Option String)
    (gen : String → Except String String) : HttpResponse × Bool :=
  if httpMethod = "POST" then
    match apiKey with
    | none => (⟨500, .message configErrMsg1⟩, false)
    | some _ =>
      match gen (prompt1 (categoryOf body)) with
      | .error e => (⟨500, .errorDetail genErrMsg e⟩, true)
      | .ok text =>
        (⟨200, .pair (normalizeFreeText text).1 (normalizeFreeText text).2⟩, true)
  else (⟨405, .message methodNotAllowedMsg⟩, false)

/-- Variant 2 (structured), lines 110-191.  `gen` covers the upstream call
and the extraction of `result.response.candidates[0].content.parts[0].text`
(an envelope failure also throws into the same catch).  A `JSON.parse`
failure on the returned text is caught by the catch of line 184 and becomes
the generation-failure response; a successfully parsed object is returned
as the 200 body without any field validation. -/
def handler2 (httpMethod : String) (body : Option String) (apiKey : Option String)
    (gen : String → Except String String) : HttpResponse × Bool :=
  if httpMethod = "POST" then
    match apiKey with
    | none => (⟨500, .message configErrMsg2⟩, false)
    | some _ =>
      match gen (prompt2 (categoryOf body)) with
      | .error e => (⟨500, .errorDetail genErrMsg e⟩, true)
      | .ok text =>
        match jsonParse text with
        | some j => (⟨200, .json j⟩, true)
        | none => (⟨500, .errorDetail genErrMsg jsonSyntaxMsg⟩, true)
  else (⟨405, .message methodNotAllowedMsg⟩, false)

/-- The `optionA` field a caller reads off a response body (`none` =
`undefined`). -/
def respOptionA (r : HttpResponse) : Option Json :=
  match r.body with
  | .pair a _ => some (.str a)
  | .json j => jsGet j "optionA"
  | _ => none

def respOptionB (r : HttpResponse) : Option Json :=
  match r.body with
  | .pair _ b => some (.str b)
  | .json j => jsGet j "optionB"
  | _ => none

/-- Whether the text contains any (case-insensitive) `A:` marker, i.e. any
position where the regex's mandatory `A:` could anchor. -/
def hasAMarker : List Char → Bool
  | c :: s => (isA c && colonHead s) || hasAMarker s
  | [] => false

/-- Whether the first element of `pre ++ s` is `':'`. -/
def nextIsColon : List Char → List Char → Bool
  | [], s => colonHead s
  | c :: _, _ => c = ':'

/-- No `A:` marker begins inside `pre` (looking one character into `s` at the
boundary): the scan for the regex's `A:` passes over all of `pre`. -/
def cleanBefore : List Char → List Char → Bool
  | [], _ => true
  | c :: pre, s => !(isA c && nextIsColon pre s) && cleanBefore pre s

/-! ## Helper lemmas about whitespace handling and trimming -/

theorem dropWhile_ne_nil_of_any {p : Char → Bool} {l : List Char}
    (h : l.any (fun c => !p c) = true) : l.dropWhile p ≠ [] := by
  induction l with
  | nil => simp at h
  | cons c t ih =>
    by_cases hc : p c
    · rw [List.dropWhile_cons_of_pos hc]
      apply ih
      simp only [List.any_cons, hc, Bool.not_true, Bool.false_or] at h
      exact h
    · simp [List.dropWhile_cons_of_neg hc]

theorem any_of_dropWhile_ne_nil {p : Char → Bool} {l : List Char}
    (h : l.dropWhile p ≠ []) : l.any (fun c => !p c) = true := by
  induction l with
  | nil => simp [List.dropWhile] at h
  | cons c t ih =>
    by_cases hc : p c
    · rw [List.dropWhile_cons_of_pos hc] at h
      simp only [List.any_cons, Bool.or_eq_true]
      exact Or.inr (ih h)
    · simp [hc]

/-- The suffix dropped to satisfies every property the whole list does. -/
theorem all_dropWhile {p q : Char → Bool} {l : List Char}
    (h : l.all q = true) : (l.dropWhile p).all q = true := by
  have := List.takeWhile_append_dropWhile p l
  have h2 : ((l.takeWhile p) ++ (l.dropWhile p)).all q = true := by rw [this]; exact h
  simp only [List.all_append, Bool.and_eq_true] at h2
  exact h2.2

theorem all_reverse {q : Char → Bool} {l : List Char}
    (h : l.all q = true) : l.reverse.all q = true := by
  simp only [List.all_eq_true] at h ⊢
  intro x hx
  exact h x (List.mem_reverse.mp hx)

theorem all_jsTrim {q : Char → Bool} {l : List Char}
    (h : l.all q = true) : (jsTrim l).all q = true :=
  all_reverse (all_dropWhile (all_reverse (all_dropWhile h)))

/-- `dropWhile` splits off an all-`p` prefix. -/
theorem dropWhile_decomp (p : Char → Bool) (l : List Char) :
    ∃ u, l = u ++ l.dropWhile p ∧ u.all p = true :=
  ⟨l.takeWhile p, (List.takeWhile_append_dropWhile p l).symm, List.all_takeWhile⟩

/-- After `dropWhile isWS`, a trimmed list is the dropped list minus its
whitespace suffix: `l.dropWhile isWS = jsTrim l ++ wsTail` with `wsTail`
all-whitespace. -/
theorem jsTrim_decomp (l : List Char) :
    ∃ w, l.dropWhile isWS = jsTrim l ++ w ∧ w.all isWS = true := by
  refine ⟨((l.dropWhile isWS).reverse.takeWhile isWS).reverse, ?_, ?_⟩
  · have h := List.takeWhile_append_dropWhile isWS (l.dropWhile isWS).reverse
    have h2 := congrArg List.reverse h
    rw [List.reverse_append, List.reverse_reverse] at h2
    exact h2.symm
  · exact all_reverse List.all_takeWhile

/-- The first element surviving a `dropWhile` fails the predicate. -/
theorem dropWhile_head_false {p : Char → Bool} {l : List Char} {c : Char}
    {t : List Char} (h : l.dropWhile p = c :: t) : p c = false := by
  induction l with
  | nil => simp [List.dropWhile] at h
  | cons a l ih =>
    by_cases ha : p a
    · rw [List.dropWhile_cons_of_pos ha] at h
      exact ih h
    · rw [List.dropWhile_cons_of_neg ha] at h
      obtain ⟨rfl, -⟩ := List.cons.injEq .. ▸ h
      simpa using ha

theorem jsTrim_head_not_ws {l : List Char} {c : Char} {t : List Char}
    (h : jsTrim l = c :: t) : isWS c = false := by
  obtain ⟨w, hw, -⟩ := jsTrim_decomp l
  rw [h] at hw
  exact dropWhile_head_false (t := t ++ w) (by rw [hw]; rfl)

/-- A list whose head fails `isWS` trims to a non-empty list. -/
theorem jsTrim_cons_ne_nil {c : Char} {t : List Char} (hc : isWS c = false) :
    jsTrim (c :: t) ≠ [] := by
  unfold jsTrim
  rw [List.dropWhile_cons_of_neg (by simp [hc])]
  intro hnil
  have := congrArg List.length hnil
  rw [List.length_reverse] at this
  have hne : (c :: t).reverse.dropWhile isWS ≠ [] := by
    apply dropWhile_ne_nil_of_any
    refine List.any_eq_true.mpr ⟨c, ?_, by simp [hc]⟩
    exact List.mem_reverse.mpr (List.mem_cons_self c t)
  exact hne (List.length_eq_zero.mp this)

theorem not_ws_of_isO {c : Char} (h : isO c = true) : isWS c = false := by
  simp only [isO, Bool.or_eq_true, decide_eq_true_eq] at h
  rcases h with rfl | rfl <;> decide

theorem not_ws_of_isB {c : Char} (h : isB c = true) : isWS c = false := by
  simp only [isB, Bool.or_eq_true, decide_eq_true_eq] at h
  rcases h with rfl | rfl <;> decide

theorem dropWhile_append_ne {p : Char → Bool} {l : List Char} (r : List Char)
    (h : l.dropWhile p ≠ []) : (l ++ r).dropWhile p = l.dropWhile p ++ r := by
  rw [List.dropWhile_append, if_neg]
  simpa using h

theorem wsTail_spec (l : List Char) :
    l.dropWhile isWS = jsTrim l ++ wsTail l ∧ (wsTail l).all isWS = true := by
  constructor
  · have h := List.takeWhile_append_dropWhile isWS (l.dropWhile isWS).reverse
    have h2 := congrArg List.reverse h
    rw [List.reverse_append, List.reverse_reverse] at h2
    exact h2.symm
  · exact all_reverse List.all_takeWhile

theorem dropWhile_length_le (p : Char → Bool) (l : List Char) :
    (l.dropWhile p).length ≤ l.length := by
  induction l with
  | nil => simp
  | cons c t ih =>
    by_cases hc : p c
    · rw [List.dropWhile_cons_of_pos hc]
      exact le_trans ih (by simp)
    · rw [List.dropWhile_cons_of_neg hc]

theorem dropWhile_idem (p : Char → Bool) (l : List Char) :
    (l.dropWhile p).dropWhile p = l.dropWhile p := by
  induction l with
  | nil => rfl
  | cons a l ih =>
    by_cases ha : p a
    · rw [List.dropWhile_cons_of_pos ha]
      exact ih
    · rw [List.dropWhile_cons_of_neg ha, List.dropWhile_cons_of_neg ha]

/-- Trimming an already left-trimmed list changes nothing. -/
theorem jsTrim_dropWhile (l : List Char) : jsTrim (l.dropWhile isWS) = jsTrim l := by
  unfold jsTrim
  rw [dropWhile_idem]

/-- A trimmed list is already left-trimmed. -/
theorem dropWhile_jsTrim (l : List Char) : (jsTrim l).dropWhile isWS = jsTrim l := by
  cases h : jsTrim l with
  | nil => rfl
  | cons c t =>
    exact List.dropWhile_cons_of_neg (by simp [jsTrim_head_not_ws h])

/-- `jsTrim` is idempotent. -/
theorem jsTrim_idem (l : List Char) : jsTrim (jsTrim l) = jsTrim l := by
  show (((jsTrim l).dropWhile isWS).reverse.dropWhile isWS).reverse = jsTrim l
  rw [dropWhile_jsTrim]
  show ((((l.dropWhile isWS).reverse.dropWhile isWS).reverse).reverse.dropWhile isWS).reverse
    = jsTrim l
  rw [List.reverse_reverse, dropWhile_idem]
  rfl

theorem jsTrim_ne_nil_of_any {l : List Char}
    (h : l.any (fun c => !isWS c) = true) : jsTrim l ≠ [] := by
  have hd := dropWhile_ne_nil_of_any h
  obtain ⟨c, t, hct⟩ := List.exists_cons_of_ne_nil hd
  rw [← jsTrim_dropWhile l, hct]
  exact jsTrim_cons_ne_nil (dropWhile_head_false hct)

/-! ## Lemmas about the regex matcher -/

theorem tryGroup2_nil : tryGroup2 [] = none := rfl

theorem kLoop_nil (acc : List Char) : kLoop acc [] = some (acc.reverse, none) := rfl

theorem kLoop_cons (acc : List Char) (c : Char) (s' : List Char) :
    kLoop acc (c :: s') =
      match tryGroup2 (c :: s') with
      | some g2 => some (acc.reverse, some g2)
      | none => if isDot c then kLoop (c :: acc) s' else none := rfl

theorem scanA_cons (c : Char) (s : List Char) (i : Nat) :
    scanA (c :: s) i =
      if isA c && colonHead s then
        match matchAfterA s.tail with
        | some g => some (i, g)
        | none => scanA s (i + 1)
      else scanA s (i + 1) := rfl

/-- A successful group-2 capture is a left-trimmed, line-terminator-free list. -/
theorem tryGroup2_some {s g : List Char} (h : tryGroup2 s = some g) :
    (∃ u : List Char, g = u.dropWhile isWS) ∧ g.all isDot = true := by
  unfold tryGroup2 at h
  rcases hd : s.dropWhile isWS with _ | ⟨o, _ | ⟨r, s4⟩⟩ <;> rw [hd] at h
  · simp [tg2AfterWS] at h
  · simp [tg2AfterWS] at h
  · simp only [tg2AfterWS] at h
    by_cases h1 : (isO o && isR r) = true
    · rw [if_pos h1] at h
      rcases hd2 : s4.dropWhile isWS with _ | ⟨b, _ | ⟨c, s6⟩⟩ <;> rw [hd2] at h
      · simp [tg2AfterOR] at h
      · simp [tg2AfterOR] at h
      · simp only [tg2AfterOR] at h
        by_cases h2 : (isB b && decide (c = ':')) = true
        · rw [if_pos h2] at h
          unfold tg2AfterB at h
          by_cases h3 : ((s6.dropWhile isWS).all isDot) = true
          · rw [if_pos h3] at h
            obtain rfl := Option.some.inj h
            exact ⟨⟨s6, rfl⟩, h3⟩
          · rw [if_neg h3] at h
            exact absurd h (by simp)
        · rw [if_neg h2] at h
          exact absurd h (by simp)
    · rw [if_neg h1] at h
      exact absurd h (by simp)

/-- The `(.*?)` loop succeeds at the separator: if `pre` is all dots, no
group-2 attempt strictly inside `pre` succeeds, and group 2 matches exactly at
the end of `pre`, then the first success is there, capturing `pre`. -/
theorem kLoop_sep :
    ∀ (pre rest acc g2 : List Char),
      pre.all isDot = true →
      (∀ n, n < pre.length → tryGroup2 (pre.drop n ++ rest) = none) →
      tryGroup2 rest = some g2 →
      kLoop acc (pre ++ rest) = some (acc.reverse ++ pre, some g2) := by
  intro pre
  induction pre with
  | nil =>
    intro rest acc g2 _ _ hg2
    cases rest with
    | nil => rw [tryGroup2_nil] at hg2; exact absurd hg2 (by simp)
    | cons c s' => simp [kLoop_cons, hg2]
  | cons c pre ih =>
    intro rest acc g2 hdot hfail hg2
    have h0 : tryGroup2 (c :: (pre ++ rest)) = none := by
      have := hfail 0 (by simp)
      simpa using this
    have hc : isDot c = true := by
      simp only [List.all_cons, Bool.and_eq_true] at hdot
      exact hdot.1
    have hdot' : pre.all isDot = true := by
      simp only [List.all_cons, Bool.and_eq_true] at hdot
      exact hdot.2
    have hrec := ih rest (c :: acc) g2 hdot'
      (fun n hn => by
        have := hfail (n + 1) (by simpa using hn)
        simpa using this) hg2
    rw [List.cons_append]
    simp only [kLoop_cons, h0, hc, if_true]
    rw [hrec]
    simp

/-- The `(.*?)` loop with no successful group-2 attempt anywhere runs to the
end of the input and reports only group 1 (the optional group is skipped and
`$` matches at the end). -/
theorem kLoop_noG2 :
    ∀ (pre acc : List Char),
      pre.all isDot = true →
      (∀ n, n ≤ pre.length → tryGroup2 (pre.drop n) = none) →
      kLoop acc pre = some (acc.reverse ++ pre, none) := by
  intro pre
  induction pre with
  | nil => intro acc _ _; simp [kLoop_nil]
  | cons c pre ih =>
    intro acc hdot hfail
    have h0 : tryGroup2 (c :: pre) = none := by
      have := hfail 0 (by simp)
      simpa using this
    have hc : isDot c = true := by
      simp only [List.all_cons, Bool.and_eq_true] at hdot
      exact hdot.1
    have hdot' : pre.all isDot = true := by
      simp only [List.all_cons, Bool.and_eq_true] at hdot
      exact hdot.2
    have hrec := ih (c :: acc) hdot'
      (fun n hn => by
        have := hfail (n + 1) (by simpa using hn)
        simpa using this)
    simp only [kLoop_cons, h0, hc, if_true]
    rw [hrec]
    simp

/-- Structure of any `kLoop` success: group 1 extends the accumulator with a
prefix of the remaining input, and group 2 (when present) is a left-trimmed,
line-terminator-free list. -/
theorem kLoop_shape :
    ∀ (s acc g1 : List Char) (g2opt : Option (List Char)),
      kLoop acc s = some (g1, g2opt) →
      (∃ pr t : List Char, s = pr ++ t ∧ g1 = acc.reverse ++ pr) ∧
        ∀ g2, g2opt = some g2 →
          (∃ u : List Char, g2 = u.dropWhile isWS) ∧ g2.all isDot = true := by
  intro s
  induction s with
  | nil =>
    intro acc g1 g2opt h
    rw [kLoop_nil] at h
    obtain ⟨rfl, rfl⟩ := Prod.mk.inj (Option.some.inj h)
    exact ⟨⟨[], [], by simp, by simp⟩, fun g2 hg2 => by simp at hg2⟩
  | cons c s' ih =>
    intro acc g1 g2opt h
    cases hg : tryGroup2 (c :: s') with
    | some g2 =>
      simp only [kLoop_cons, hg] at h
      obtain ⟨rfl, rfl⟩ := Prod.mk.inj (Option.some.inj h)
      exact ⟨⟨[], c :: s', by simp, by simp⟩,
        fun g2' hg2' => by
          obtain rfl := Option.some.inj hg2'
          exact tryGroup2_some hg⟩
    | none =>
      simp only [kLoop_cons, hg] at h
      by_cases hc : isDot c = true
      · rw [if_pos hc] at h
        obtain ⟨⟨pr, t, hst, hg1⟩, hG2⟩ := ih (c :: acc) g1 g2opt h
        refine ⟨⟨c :: pr, t, by simp [hst], ?_⟩, hG2⟩
        rw [hg1]
        simp
      · rw [if_neg hc] at h
        exact absurd h (by simp)

/-- Any `scanA` success comes from a successful `matchAfterA`. -/
theorem scanA_shape :
    ∀ (s : List Char) (i q : Nat) (g : List Char × Option (List Char)),
      scanA s i = some (q, g) → ∃ rest, matchAfterA rest = some g := by
  intro s
  induction s with
  | nil => intro i q g h; simp [scanA] at h
  | cons c s' ih =>
    intro i q g h
    by_cases hcond : (isA c && colonHead s') = true
    · rw [scanA_cons, if_pos hcond] at h
      cases hm : matchAfterA s'.tail with
      | some g' =>
        simp only [hm] at h
        obtain ⟨-, rfl⟩ := Prod.mk.inj (Option.some.inj h)
        exact ⟨s'.tail, hm⟩
      | none =>
        simp only [hm] at h
        exact ih _ _ _ h
    · rw [scanA_cons, if_neg hcond] at h
      exact ih _ _ _ h

/-- If the text has no `A:` marker at all, the regex cannot match. -/
theorem scanA_none_of_noMarker :
    ∀ (s : List Char) (i : Nat), hasAMarker s = false → scanA s i = none := by
  intro s
  induction s with
  | nil => intro i _; rfl
  | cons c s' ih =>
    intro i h
    simp only [hasAMarker, Bool.or_eq_false_iff] at h
    rw [scanA_cons, if_neg (by simp [h.1])]
    exact ih _ h.2

theorem colonHead_append (pre s : List Char) :
    colonHead (pre ++ s) = nextIsColon pre s := by
  cases pre with
  | nil => rfl
  | cons c t => rfl

/-- The scan skips over a clean preamble. -/
theorem scanA_skip :
    ∀ (pre s : List Char) (i : Nat), cleanBefore pre s = true →
      scanA (pre ++ s) i = scanA s (i + pre.length) := by
  intro pre
  induction pre with
  | nil => intro s i _; simp
  | cons c pre ih =>
    intro s i h
    simp only [cleanBefore, Bool.and_eq_true, Bool.not_eq_true'] at h
    have hcond : (isA c && colonHead (pre ++ s)) = false := by
      rw [colonHead_append]
      exact h.1
    rw [List.cons_append, scanA_cons, if_neg (by simp [hcond]), ih s (i + 1) h.2]
    simp only [List.length_cons]
    congr 1
    omega

/-! ## The free-text normalization invariant -/

/-- Whatever the raw text, both components of the free-text normalization are
non-empty: captured options start with a non-whitespace character (so their
trim is non-empty), and every fallback literal is non-empty. -/
theorem normalizeFT_ne_nil (text : List Char) :
    (normalizeFT text).1 ≠ [] ∧ (normalizeFT text).2 ≠ [] := by
  cases hm : jsMatch text with
  | none =>
    simp only [normalizeFT, hm]
    exact ⟨by decide, by decide⟩
  | some qg =>
    obtain ⟨q, g1, g2opt⟩ := qg
    simp only [normalizeFT, hm]
    by_cases hg1 : g1 = []
    · rw [if_pos hg1]
      exact ⟨by decide, by decide⟩
    · rw [if_neg hg1]
      obtain ⟨rest, hrest⟩ := scanA_shape text 0 q (g1, g2opt) hm
      have hk : kLoop [] (rest.dropWhile isWS) = some (g1, g2opt) := hrest
      obtain ⟨⟨pr, t, hst, hg1eq⟩, hG2⟩ := kLoop_shape _ _ _ _ hk
      rw [List.reverse_nil, List.nil_append] at hg1eq
      subst hg1eq
      have hA : jsTrim g1 ≠ [] := by
        obtain ⟨c1, g1', rfl⟩ := List.exists_cons_of_ne_nil hg1
        refine jsTrim_cons_ne_nil (dropWhile_head_false (l := rest) (t := g1' ++ t) ?_)
        rw [hst]
        rfl
      rcases g2opt with _ | g2
      · refine ⟨hA, ?_⟩
        show (if jsTrim (text.drop (text.length - (q - wsSuffLen (text.take q)))) = []
              then fallbackB
              else jsTrim (text.drop (text.length - (q - wsSuffLen (text.take q))))) ≠ []
        by_cases hr : jsTrim (text.drop (text.length - (q - wsSuffLen (text.take q)))) = []
        · rw [if_pos hr]
          decide
        · rw [if_neg hr]
          exact hr
      · rcases g2 with _ | ⟨c2, tl⟩
        · refine ⟨hA, ?_⟩
          show (if jsTrim (text.drop (text.length - (q - wsSuffLen (text.take q)))) = []
                then fallbackB
                else jsTrim (text.drop (text.length - (q - wsSuffLen (text.take q))))) ≠ []
          by_cases hr : jsTrim (text.drop (text.length - (q - wsSuffLen (text.take q)))) = []
          · rw [if_pos hr]
            decide
          · rw [if_neg hr]
            exact hr
        · refine ⟨hA, ?_⟩
          obtain ⟨⟨u, hu⟩, -⟩ := hG2 (c2 :: tl) rfl
          exact jsTrim_cons_ne_nil (dropWhile_head_false (l := u) hu.symm)

/-! ## Evaluation of the normalizer on the main input families -/

/-- When the regex matches at index 0 with only group 1, the source computes
`text.substring(match[0].length)` — the last zero characters of the text — so
option B falls back to the literal. -/
theorem normalizeFT_eval_noG2 (text g1 : List Char)
    (hj : jsMatch text = some (0, (g1, none))) (hg1 : g1 ≠ []) :
    normalizeFT text = (jsTrim g1, fallbackB) := by
  simp only [normalizeFT, hj]
  rw [if_neg hg1]
  simp [wsSuffLen, List.drop_length, jsTrim]

/-- `A:<x>` with no possible group-2 attachment inside `x`: option A is all of
`x` trimmed and option B is the fixed literal fallback — the source never
splits the captured text at an embedded `B:` or at `" or "`. -/
theorem normalizeFT_onlyA (a : Char) (x : List Char)
    (ha : isA a = true)
    (hdot : x.all isDot = true)
    (hne : x.any (fun c => !isWS c) = true)
    (hnog2 : ∀ n, n ≤ x.length → tryGroup2 ((x.dropWhile isWS).drop n) = none) :
    normalizeFT (a :: ':' :: x) = (jsTrim x, fallbackB) := by
  have hmA : matchAfterA x = some (x.dropWhile isWS, none) := by
    show kLoop [] (x.dropWhile isWS) = _
    rw [kLoop_noG2 (x.dropWhile isWS) [] (all_dropWhile hdot)
      (fun n hn => hnog2 n (le_trans hn (dropWhile_length_le _ _)))]
    rw [List.reverse_nil, List.nil_append]
  have hj : jsMatch (a :: ':' :: x) = some (0, (x.dropWhile isWS, none)) := by
    show scanA (a :: ':' :: x) 0 = _
    rw [scanA_cons, if_pos (by simp [ha, colonHead])]
    simp only [List.tail_cons]
    rw [hmA]
  have := normalizeFT_eval_noG2 _ _ hj (dropWhile_ne_nil_of_any hne)
  rw [this, jsTrim_dropWhile]

/-- The strict-pattern path.  On a text of the shape

  `pre  A: x  <ws> OR <ws> B: <ws>  y`

(markers in either case, `u`/`v`/`w` whitespace runs that may contain
newlines, `x`/`y` free of line terminators and not all-whitespace, no `A:`
marker inside `pre`, and no earlier group-2 attachment point inside the
trimmed `x`), the regex commits to this decomposition and the source returns
both captures trimmed. -/
theorem normalizeFT_sep (pre x u v w y : List Char) (a o r bb : Char)
    (ha : isA a = true) (ho : isO o = true) (hrr : isR r = true) (hb : isB bb = true)
    (hu : u.all isWS = true) (hv : v.all isWS = true) (hw : w.all isWS = true)
    (hx : x.all isDot = true) (hxne : x.any (fun c => !isWS c) = true)
    (hy : y.all isDot = true) (hyne : y.any (fun c => !isWS c) = true)
    (hpre : cleanBefore pre
      (a :: ':' :: (x ++ (u ++ (o :: r :: (v ++ (bb :: ':' :: (w ++ y))))))) = true)
    (hsplit : ∀ n, n < (jsTrim x).length →
      tryGroup2 ((jsTrim x).drop n ++
        (wsTail x ++ (u ++ (o :: r :: (v ++ (bb :: ':' :: (w ++ y))))))) = none) :
    normalizeFT (pre ++ a :: ':' :: (x ++ (u ++ (o :: r :: (v ++ (bb :: ':' :: (w ++ y)))))))
      = (jsTrim x, jsTrim y) := by
  have hg2 : tryGroup2 (wsTail x ++ (u ++ (o :: r :: (v ++ (bb :: ':' :: (w ++ y))))))
      = some (y.dropWhile isWS) := by
    unfold tryGroup2
    rw [List.dropWhile_append_of_pos (List.all_eq_true.mp (wsTail_spec x).2),
        List.dropWhile_append_of_pos (List.all_eq_true.mp hu),
        List.dropWhile_cons_of_neg (by simp [not_ws_of_isO ho])]
    simp only [tg2AfterWS]
    rw [if_pos (by simp [ho, hrr])]
    rw [List.dropWhile_append_of_pos (List.all_eq_true.mp hv),
        List.dropWhile_cons_of_neg (by simp [not_ws_of_isB hb])]
    simp only [tg2AfterOR]
    rw [if_pos (by simp [hb])]
    unfold tg2AfterB
    rw [List.dropWhile_append_of_pos (List.all_eq_true.mp hw)]
    rw [if_pos (all_dropWhile hy)]
  have hs1 : (x ++ (u ++ (o :: r :: (v ++ (bb :: ':' :: (w ++ y)))))).dropWhile isWS
      = jsTrim x ++ (wsTail x ++ (u ++ (o :: r :: (v ++ (bb :: ':' :: (w ++ y)))))) := by
    rw [dropWhile_append_ne _ (dropWhile_ne_nil_of_any hxne), (wsTail_spec x).1,
        List.append_assoc]
  have hk : kLoop [] ((x ++ (u ++ (o :: r :: (v ++ (bb :: ':' :: (w ++ y)))))).dropWhile isWS)
      = some (jsTrim x, some (y.dropWhile isWS)) := by
    rw [hs1]
    have := kLoop_sep (jsTrim x)
      (wsTail x ++ (u ++ (o :: r :: (v ++ (bb :: ':' :: (w ++ y)))))) []
      (y.dropWhile isWS) (all_jsTrim hx) hsplit hg2
    simpa using this
  have hj : jsMatch (pre ++ a :: ':' :: (x ++ (u ++ (o :: r :: (v ++ (bb :: ':' :: (w ++ y)))))))
      = some (pre.length, (jsTrim x, some (y.dropWhile isWS))) := by
    show scanA _ 0 = _
    rw [scanA_skip pre _ 0 hpre]
    rw [scanA_cons, if_pos (by simp [ha, colonHead])]
    simp only [List.tail_cons]
    have hmA : matchAfterA (x ++ (u ++ (o :: r :: (v ++ (bb :: ':' :: (w ++ y))))))
        = some (jsTrim x, some (y.dropWhile isWS)) := hk
    rw [hmA]
    simp
  have hyne' : y.dropWhile isWS ≠ [] := dropWhile_ne_nil_of_any hyne
  obtain ⟨c2, tl, hctl⟩ := List.exists_cons_of_ne_nil hyne'
  simp only [normalizeFT, hj]
  rw [if_neg (jsTrim_ne_nil_of_any hxne), hctl]
  show (jsTrim (jsTrim x), jsTrim (c2 :: tl)) = (jsTrim x, jsTrim y)
  rw [← hctl, jsTrim_idem, jsTrim_dropWhile]

/-- String-level version of the non-emptiness invariant of the free-text
normalizer. -/
theorem normalizeFreeText_ne (text : String) :
    (normalizeFreeText text).1 ≠ "" ∧ (normalizeFreeText text).2 ≠ "" := by
  have h := normalizeFT_ne_nil text.data
  constructor
  · intro hc
    exact h.1 (congrArg String.data hc)
  · intro hc
    exact h.2 (congrArg String.data hc)

/-! ## Claim theorems -/

/-- Claim C6: for every free-text raw output containing no recognizable `A:`
marker anywhere, `normalize` returns the fixed, non-empty pair of hard-coded
default option strings ("always be 10 minutes late" / "always be 20 minutes
early"). -/
theorem c6_no_marker_default (text : String) (h : hasAMarker text.data = false) :
    normalizeFreeText text =
      ("Would you rather always be 10 minutes late,",
       "or always be 20 minutes early?") := by
  have hn : jsMatch text.data = none := scanA_none_of_noMarker text.data 0 h
  show (String.mk (normalizeFT text.data).1, String.mk (normalizeFT text.data).2) = _
  simp only [normalizeFT, hn]
  rfl

/-- Witness for C6 at the spec's own scenario `"I cannot answer that."`. -/
theorem c6_witness :
    hasAMarker "I cannot answer that.".data = false ∧
    normalizeFreeText "I cannot answer that." =
      ("Would you rather always be 10 minutes late,",
       "or always be 20 minutes early?") :=
  ⟨by decide, c6_no_marker_default "I cannot answer that." (by decide)⟩

/-- Claim C3 counterexample: the raw text `"A: foo\nbar OR B: baz"` matches
the pattern `A: <x> OR B: <y>` with `<x> = "foo\nbar"` containing an embedded
newline, but the regex's `.` does not match line terminators (no `s` flag),
the whole match fails, and the source returns the generic default pair instead
of the trimmed captures the claim requires. -/
theorem c3_counterexample :
    normalizeFreeText "A: foo\nbar OR B: baz" =
      ("Would you rather always be 10 minutes late,",
       "or always be 20 minutes early?") ∧
    normalizeFreeText "A: foo\nbar OR B: baz" ≠ ("foo\nbar", "baz") := by
  constructor
  · rfl
  · decide

/-- Claim C3 (amended): for free-text raw output matching
`<pre> A: <x> <ws> OR <ws> B: <ws> <y>` — markers in any letter case,
whitespace (including newlines) around the `OR`/`B:` separator, embedded
markup tolerated and preserved — but with no line terminators *inside* `<x>`
and `<y>`, no `A:` marker in the preamble, and no earlier separator occurrence
inside `<x>`, `normalize` returns `optionA = trim(x)` and
`optionB = trim(y)`. -/
theorem c3_strict_pattern (pre x u v w y : List Char) (a o r bb : Char)
    (ha : isA a = true) (ho : isO o = true) (hrr : isR r = true) (hb : isB bb = true)
    (hu : u.all isWS = true) (hv : v.all isWS = true) (hw : w.all isWS = true)
    (hx : x.all isDot = true) (hxne : x.any (fun c => !isWS c) = true)
    (hy : y.all isDot = true) (hyne : y.any (fun c => !isWS c) = true)
    (hpre : cleanBefore pre
      (a :: ':' :: (x ++ (u ++ (o :: r :: (v ++ (bb :: ':' :: (w ++ y))))))) = true)
    (hsplit : ∀ n, n < (jsTrim x).length →
      tryGroup2 ((jsTrim x).drop n ++
        (wsTail x ++ (u ++ (o :: r :: (v ++ (bb :: ':' :: (w ++ y))))))) = none) :
    normalizeFreeText
        (String.mk (pre ++ a :: ':' :: (x ++ (u ++ (o :: r :: (v ++ (bb :: ':' :: (w ++ y))))))))
      = (String.mk (jsTrim x), String.mk (jsTrim y)) := by
  have h := normalizeFT_sep pre x u v w y a o r bb ha ho hrr hb hu hv hw hx hxne hy hyne
    hpre hsplit
  show (String.mk (normalizeFT (pre ++ a :: ':' :: (x ++ (u ++ (o :: r :: (v ++ (bb :: ':' :: (w ++ y))))))) ).1,
        String.mk (normalizeFT (pre ++ a :: ':' :: (x ++ (u ++ (o :: r :: (v ++ (bb :: ':' :: (w ++ y))))))) ).2) = _
  rw [h]

/-- Witness for the amended C3 at the spec's end-to-end scenario. -/
theorem c3_witness :
    normalizeFreeText "Here you go!\nA: **Fly** forever\nOR B: *Teleport* anywhere"
      = ("**Fly** forever", "*Teleport* anywhere") := by
  have h := c3_strict_pattern "Here you go!\n".data " **Fly** forever".data
    "\n".data " ".data " ".data "*Teleport* anywhere".data 'A' 'O' 'R' 'B'
    (by decide) (by decide) (by decide) (by decide) (by decide) (by decide)
    (by decide) (by decide) (by decide) (by decide) (by decide) (by decide)
    (by decide)
  exact h.trans (by decide)

/-- Claim C4 counterexample: on the spec's own scenario
`"A: Eat pizza every day or never eat pizza again"` the source performs no
`" or "` split: the entire captured text becomes option A and option B is the
literal fallback, not the claimed split halves. -/
theorem c4_counterexample :
    normalizeFreeText "A: Eat pizza every day or never eat pizza again" =
      ("Eat pizza every day or never eat pizza again", "or face a new challenge?") ∧
    normalizeFreeText "A: Eat pizza every day or never eat pizza again" ≠
      ("Eat pizza every day", "never eat pizza again") := by
  constructor
  · rfl
  · decide

/-- Claim C4 (amended): for free-text raw output `A:<x>` whose captured text
contains the literal substring `" or "` and admits no group-2 (`OR ... B:`)
attachment anywhere, `normalize` does **not** split at `" or "`: option A is
the entire trimmed captured text (the `" or "` included) and option B is the
fixed literal `"or face a new challenge?"` (the post-match remainder being
empty when the match starts at the beginning of the text). -/
theorem c4_or_not_split (a : Char) (x : List Char)
    (ha : isA a = true) (hdot : x.all isDot = true)
    (hne : x.any (fun c => !isWS c) = true)
    (hor : ∃ l r : List Char, x = l ++ ' ' :: 'o' :: 'r' :: ' ' :: r)
    (hnog2 : ∀ n, n ≤ x.length → tryGroup2 ((x.dropWhile isWS).drop n) = none) :
    normalizeFreeText (String.mk (a :: ':' :: x)) =
      (String.mk (jsTrim x), "or face a new challenge?") := by
  have h := normalizeFT_onlyA a x ha hdot hne hnog2
  show (String.mk (normalizeFT (a :: ':' :: x)).1,
        String.mk (normalizeFT (a :: ':' :: x)).2) = _
  rw [h]
  rfl

/-- Witness for the amended C4 at the spec's pizza scenario. -/
theorem c4_witness :
    normalizeFreeText "A: Eat pizza every day or never eat pizza again" =
      ("Eat pizza every day or never eat pizza again", "or face a new challenge?") := by
  have h := c4_or_not_split 'A' " Eat pizza every day or never eat pizza again".data
    (by decide) (by decide) (by decide)
    ⟨" Eat pizza every day".data, "never eat pizza again".data, by decide⟩
    (by decide)
  exact h.trans (by decide)

/-- Claim C5 counterexample: on `"A: eat cake B: eat pie"` (an `A:` capture
with an embedded `B:` marker, no `OR`), the source performs no split at the
embedded `B:`: option A keeps the whole captured text, option B is the
literal fallback. -/
theorem c5_counterexample :
    normalizeFreeText "A: eat cake B: eat pie" =
      ("eat cake B: eat pie", "or face a new challenge?") ∧
    normalizeFreeText "A: eat cake B: eat pie" ≠ ("eat cake", "eat pie") := by
  constructor
  · rfl
  · decide

/-- Claim C5 (amended): for free-text raw output `A:<x>` whose captured text
contains an embedded literal `B:` marker and admits no group-2 (`OR ... B:`)
attachment anywhere, `normalize` does **not** split at the embedded marker:
option A is the entire trimmed captured text (the `B:` included) and option B
is the fixed literal `"or face a new challenge?"`. -/
theorem c5_embedded_b_not_split (a : Char) (x : List Char)
    (ha : isA a = true) (hdot : x.all isDot = true)
    (hne : x.any (fun c => !isWS c) = true)
    (hbm : ∃ l r : List Char, x = l ++ 'B' :: ':' :: r)
    (hnog2 : ∀ n, n ≤ x.length → tryGroup2 ((x.dropWhile isWS).drop n) = none) :
    normalizeFreeText (String.mk (a :: ':' :: x)) =
      (String.mk (jsTrim x), "or face a new challenge?") := by
  have h := normalizeFT_onlyA a x ha hdot hne hnog2
  show (String.mk (normalizeFT (a :: ':' :: x)).1,
        String.mk (normalizeFT (a :: ':' :: x)).2) = _
  rw [h]
  rfl

/-- Witness for the amended C5. -/
theorem c5_witness :
    normalizeFreeText "A: eat cake B: eat pie" =
      ("eat cake B: eat pie", "or face a new challenge?") := by
  have h := c5_embedded_b_not_split 'A' " eat cake B: eat pie".data
    (by decide) (by decide) (by decide)
    ⟨" eat cake ".data, " eat pie".data, by decide⟩
    (by decide)
  exact h.trans (by decide)

/-- Claim C1 counterexample: in structured mode the handler returns the parsed
object without any field validation, so a syntactically valid reply with an
empty `optionA` is passed through on the 200 success path — the pair the
caller reads has an empty field. -/
theorem c1_counterexample :
    (handler2 "POST" none (some "key")
        (fun _ => Except.ok "\x7b\"optionA\":\"\",\"optionB\":\"x\"\x7d")).1.statusCode = 200 ∧
    respOptionA (handler2 "POST" none (some "key")
        (fun _ => Except.ok "\x7b\"optionA\":\"\",\"optionB\":\"x\"\x7d")).1
      = some (Json.str "") :=
  ⟨rfl, rfl⟩

/-- Claim C1 (amended): in free-text mode the invariant holds — for every raw
model output (the empty string included), the pair returned on the success
path has both fields non-empty.  (In structured mode the parsed object is
returned unvalidated, so empty or missing fields pass through: see the
counterexample.) -/
theorem c1_free_text_invariant (text : String) :
    (normalizeFreeText text).1 ≠ "" ∧ (normalizeFreeText text).2 ≠ "" :=
  normalizeFreeText_ne text

/-- Claim C2 counterexample: in structured mode, raw output that is not valid
JSON does not degrade through a fallback chain — `JSON.parse` throws into the
handler's catch and the request aborts with the 500 generation-failure
response. -/
theorem c2_counterexample :
    (handler2 "POST" none (some "k") (fun _ => Except.ok "not json")).1 =
      ⟨500, .errorDetail genErrMsg jsonSyntaxMsg⟩ :=
  rfl

/-- Claim C2 (amended): in free-text mode normalization never fails outward —
every raw model output yields a 200 response carrying a populated pair.  In
structured mode, raw output that is not syntactically valid JSON aborts the
request with the 500 generation-failure error instead of falling back. -/
theorem c2_normalize_failure_modes (b : Option String) (k t : String)
    (g : String → Except String String) (hg : ∀ p, g p = Except.ok t) :
    ((handler1 "POST" b (some k) g).1 =
        ⟨200, .pair (normalizeFreeText t).1 (normalizeFreeText t).2⟩ ∧
      (normalizeFreeText t).1 ≠ "" ∧ (normalizeFreeText t).2 ≠ "") ∧
    (jsonParse t = none →
      (handler2 "POST" b (some k) g).1 = ⟨500, .errorDetail genErrMsg jsonSyntaxMsg⟩) := by
  refine ⟨⟨?_, normalizeFreeText_ne t⟩, ?_⟩
  · unfold handler1
    rw [if_pos rfl, hg (prompt1 (categoryOf b))]
  · intro hp
    unfold handler2
    rw [if_pos rfl, hg (prompt2 (categoryOf b))]
    show (match jsonParse t with
          | some j => (⟨200, RespBody.json j⟩, true)
          | none =>
            (⟨500, RespBody.errorDetail genErrMsg jsonSyntaxMsg⟩, true) :
            HttpResponse × Bool).1 = _
    rw [hp]

/-- Witness for the amended C2 with the invalid structured reply `"not json"`. -/
theorem c2_witness :
    (((handler1 "POST" none (some "k") (fun _ => Except.ok "not json")).1 =
        ⟨200, .pair (normalizeFreeText "not json").1 (normalizeFreeText "not json").2⟩ ∧
      (normalizeFreeText "not json").1 ≠ "" ∧ (normalizeFreeText "not json").2 ≠ "") ∧
    (handler2 "POST" none (some "k") (fun _ => Except.ok "not json")).1 =
      ⟨500, .errorDetail genErrMsg jsonSyntaxMsg⟩) := by
  have h := c2_normalize_failure_modes none "k" "not json"
    (fun _ => Except.ok "not json") (fun _ => rfl)
  exact ⟨h.1, h.2 rfl⟩

/-- Claim C7: for every structured-mode raw output that parses to an object
with non-empty string fields `optionA` and `optionB`, the handler returns the
parsed object unchanged with status 200, and the fields the caller reads are
exactly those two strings (no trimming or other modification). -/
theorem c7_structured_passthrough (t : String) (j : Json) (a b k : String)
    (bodyStr : Option String) (g : String → Except String String)
    (hg : ∀ p, g p = Except.ok t)
    (hp : jsonParse t = some j)
    (hA : jsGet j "optionA" = some (Json.str a)) (hAne : a ≠ "")
    (hB : jsGet j "optionB" = some (Json.str b)) (hBne : b ≠ "") :
    (handler2 "POST" bodyStr (some k) g).1 = ⟨200, .json j⟩ ∧
    respOptionA (handler2 "POST" bodyStr (some k) g).1 = some (Json.str a) ∧
    respOptionB (handler2 "POST" bodyStr (some k) g).1 = some (Json.str b) := by
  have h2 : (handler2 "POST" bodyStr (some k) g).1 = ⟨200, .json j⟩ := by
    unfold handler2
    rw [if_pos rfl, hg (prompt2 (categoryOf bodyStr))]
    show (match jsonParse t with
          | some j => (⟨200, RespBody.json j⟩, true)
          | none =>
            (⟨500, RespBody.errorDetail genErrMsg jsonSyntaxMsg⟩, true) :
            HttpResponse × Bool).1 = _
    rw [hp]
  refine ⟨h2, ?_, ?_⟩
  · rw [h2]
    exact hA
  · rw [h2]
    exact hB

/-- Witness for C7 at the spec's scenario
`{"optionA":"Live underwater","optionB":"Live in space"}`. -/
theorem c7_witness :
    (handler2 "POST" none (some "k")
        (fun _ => Except.ok
          "\x7b\"optionA\":\"Live underwater\",\"optionB\":\"Live in space\"\x7d")).1
      = ⟨200, .json (Json.obj
          [("optionA", Json.str "Live underwater"),
           ("optionB", Json.str "Live in space")])⟩ ∧
    respOptionA (handler2 "POST" none (some "k")
        (fun _ => Except.ok
          "\x7b\"optionA\":\"Live underwater\",\"optionB\":\"Live in space\"\x7d")).1
      = some (Json.str "Live underwater") ∧
    respOptionB (handler2 "POST" none (some "k")
        (fun _ => Except.ok
          "\x7b\"optionA\":\"Live underwater\",\"optionB\":\"Live in space\"\x7d")).1
      = some (Json.str "Live in space") := by
  exact c7_structured_passthrough
    "\x7b\"optionA\":\"Live underwater\",\"optionB\":\"Live in space\"\x7d"
    (Json.obj [("optionA", Json.str "Live underwater"),
               ("optionB", Json.str "Live in space")])
    "Live underwater" "Live in space" "k" none
    (fun _ => Except.ok
      "\x7b\"optionA\":\"Live underwater\",\"optionB\":\"Live in space\"\x7d")
    (fun _ => rfl) rfl rfl (by decide) rfl (by decide)

/-- Claim C8 counterexample: a missing-credential configuration failure and an
upstream generation failure both carry status 500 — the three failure kinds do
not have pairwise distinct statuses. -/
theorem c8_counterexample :
    (handler1 "POST" none none (fun _ => Except.error "boom")).1.statusCode = 500 ∧
    (handler1 "POST" none (some "key") (fun _ => Except.error "boom")).1.statusCode = 500 :=
  ⟨rfl, rfl⟩

/-- Claim C8 (amended): the method-not-allowed rejection (405) has a status
distinct from both the configuration failure and the generation failure, but
those two share status 500 and are told apart only by their response bodies. -/
theorem c8_statuses (m : String) (hm : m ≠ "POST") (b1 b2 b3 : Option String)
    (k e : String) (g1 g2 : String → Except String String)
    (hg : ∀ p, g2 p = Except.error e) :
    ((handler1 m b1 none g1).1.statusCode ≠ (handler1 "POST" b2 none g1).1.statusCode ∧
      (handler1 m b1 none g1).1.statusCode ≠
        (handler1 "POST" b3 (some k) g2).1.statusCode) ∧
    (handler1 "POST" b2 none g1).1.statusCode =
        (handler1 "POST" b3 (some k) g2).1.statusCode ∧
    (handler1 "POST" b2 none g1).1.body ≠ (handler1 "POST" b3 (some k) g2).1.body := by
  have h1 : (handler1 m b1 none g1).1 = ⟨405, .message methodNotAllowedMsg⟩ := by
    unfold handler1
    rw [if_neg hm]
  have h2 : (handler1 "POST" b2 none g1).1 = ⟨500, .message configErrMsg1⟩ := by
    unfold handler1
    rw [if_pos rfl]
  have h3 : (handler1 "POST" b3 (some k) g2).1 = ⟨500, .errorDetail genErrMsg e⟩ := by
    unfold handler1
    rw [if_pos rfl, hg (prompt1 (categoryOf b3))]
  rw [h1, h2, h3]
  exact ⟨⟨by show (405 : Nat) ≠ 500; decide, by show (405 : Nat) ≠ 500; decide⟩,
    rfl, fun hcon => RespBody.noConfusion hcon⟩

/-- Witness for the amended C8 at a concrete GET request, missing key, and a
failing upstream call. -/
theorem c8_witness :
    (((handler1 "GET" none none (fun _ => Except.ok "x")).1.statusCode ≠
        (handler1 "POST" none none (fun _ => Except.ok "x")).1.statusCode ∧
      (handler1 "GET" none none (fun _ => Except.ok "x")).1.statusCode ≠
        (handler1 "POST" none (some "key") (fun _ => Except.error "boom")).1.statusCode) ∧
    (handler1 "POST" none none (fun _ => Except.ok "x")).1.statusCode =
        (handler1 "POST" none (some "key") (fun _ => Except.error "boom")).1.statusCode ∧
    (handler1 "POST" none none (fun _ => Except.ok "x")).1.body ≠
        (handler1 "POST" none (some "key") (fun _ => Except.error "boom")).1.body) :=
  c8_statuses "GET" (by decide) none none none "key" "boom"
    (fun _ => Except.ok "x") (fun _ => Except.error "boom") (fun _ => rfl)

/-- Claim C9: for every request arriving while the API-key environment
variable is unset, no outbound call to the generation service is attempted
(the upstream-call flag stays `false` whatever the method), and every POST
request gets the configuration-failure response. -/
theorem c9_missing_key_short_circuit (m : String) (b : Option String)
    (g : String → Except String String) :
    (handler1 m b none g).2 = false ∧
    (m = "POST" → (handler1 m b none g).1 = ⟨500, .message configErrMsg1⟩) := by
  by_cases hm : m = "POST"
  · subst hm
    refine ⟨?_, fun _ => ?_⟩
    · unfold handler1
      rw [if_pos rfl]
    · unfold handler1
      rw [if_pos rfl]
  · refine ⟨?_, fun h => absurd h hm⟩
    unfold handler1
    rw [if_neg hm]

/-- Witness for C9 at a concrete POST request with no key set. -/
theorem c9_witness :
    (handler1 "POST" none none (fun _ => Except.ok "x")).2 = false ∧
    (handler1 "POST" none none (fun _ => Except.ok "x")).1 =
      ⟨500, .message configErrMsg1⟩ := by
  have h := c9_missing_key_short_circuit "POST" none (fun _ => Except.ok "x")
  exact ⟨h.1, h.2 rfl⟩

/-- Claim C10: for every POST request whose body is valid JSON but whose
`category` field is absent or falsy (the empty string included), the handler
falls back to the default category `"General"` — the prompt is built exactly
as for an absent body. -/
theorem c10_falsy_category_default (s : String) (j : Json)
    (hp : jsonParse s = some j) (hfalsy : categoryTruthy j = false) :
    categoryOf (some s) = Json.str "General" ∧
    ∀ (k : Option String) (g : String → Except String String),
      handler1 "POST" (some s) k g = handler1 "POST" none k g := by
  have hc : categoryOf (some s) = Json.str "General" := by
    simp only [categoryOf, hp]
    by_cases hb : jsTruthy j = true
    · rw [if_pos hb]
      unfold categoryTruthy at hfalsy
      cases hv : jsGet j "category" with
      | none => simp only [hv]
      | some v =>
        simp only [hv] at hfalsy
        simp only [hv]
        rw [if_neg (by simp [hfalsy])]
    · rw [if_neg hb]
  refine ⟨hc, fun k g => ?_⟩
  unfold handler1
  rw [hc]
  rfl

/-- Witness for C10 with the body `{"category":""}`: a present but empty
category falls back to `"General"`. -/
theorem c10_witness :
    categoryOf (some "\x7b\"category\":\"\"\x7d") = Json.str "General" ∧
    handler1 "POST" (some "\x7b\"category\":\"\"\x7d") (some "k")
        (fun _ => Except.ok "A: x OR B: y")
      = handler1 "POST" none (some "k") (fun _ => Except.ok "A: x OR B: y") := by
  have h := c10_falsy_category_default "\x7b\"category\":\"\"\x7d"
    (Json.obj [("category", Json.str "")]) rfl rfl
  exact ⟨h.1, h.2 (some "k") (fun _ => Except.ok "A: x OR B: y")⟩

end WouldYouRather
